import Mathlib

/-!
Verification of the fasttrack_job_processor asynchronous job lifecycle engine.

The development shallowly embeds the backend's job state machine:
the Mongoose job model (`models/job.model.ts`), the repository layer
(`repositories/job.repository.ts`), the service layer
(`services/job.service.ts`), the zod request validation
(`schemas/job.schema.ts`), the HTTP controller's webhook callback
(`controllers/job.controller.ts`) and the mock queue
(`queue/mock-job-queue.ts`).

Conventions of the embedding:
- The MongoDB collection is a list of job records; `findById` returns the
  first record with a matching id (ids are unique, guaranteed by the store).
- JavaScript `undefined` versus present is an outer `Option`; a nullable
  field is an inner `Option` (`none` = `null`).
- JavaScript truthiness on optional strings (`error ? ... : ...`,
  `result || null`) is `truthyStr` / `orNull`: `undefined`, `null` and the
  empty string are falsy.
- The two `Math.random` draws inside `handleWebhookCallback` are modelled
  by an explicit pair of already-floored naturals passed in as `rand`.
- JavaScript numbers are modelled as `Nat` (token counts) and `ℚ` (cost);
  the floating-point rounding of `totalTokens * 0.00002` is abstracted to
  exact rational arithmetic.
- Timestamps (`createdAt` / `updatedAt`) play no role in any claim and are
  omitted from the record.
-/

/-- Job status lifecycle states, from `models/job.model.ts` (`JobStatus`). -/
inductive JobStatus where
  | PENDING
  | COMPLETED
  | FAILED
deriving DecidableEq

/-- Usage-accounting metadata, from `models/job.model.ts` (`JobMetadata`);
all four fields are optional. -/
structure JobMetadata where
  promptTokens : Option Nat := none
  completionTokens : Option Nat := none
  totalTokens : Option Nat := none
  estimatedCost : Option ℚ := none
deriving DecidableEq

/-- A job document, from `models/job.model.ts` (`IJob`). `result` and
`error` default to `null`; `metadata` defaults to the empty object. -/
structure JobRec where
  id : String
  prompt : String
  status : JobStatus
  result : Option String
  error : Option String
  metadata : JobMetadata
deriving DecidableEq

/-- The job collection: one record per job. -/
abbrev Store := List JobRec

/-- `JobRepository.findById`: fetch a record by id (`Job.findById`). -/
def JobRepository.findById (s : Store) (jobId : String) : Option JobRec :=
  s.find? (fun j => j.id == jobId)

/-- `JobRepository.create`: `new Job({prompt}).save()`. The Mongoose schema
trims the prompt and applies the defaults `status = PENDING`,
`result = null`, `error = null`, `metadata = {}`. The fresh id assigned by
the store is passed in explicitly. -/
def JobRepository.create (s : Store) (freshId : String) (prompt : String) :
    Store × JobRec :=
  let j : JobRec :=
    { id := freshId
      prompt := prompt.trim
      status := JobStatus.PENDING
      result := none
      error := none
      metadata := {} }
  (s ++ [j], j)

/-- The `$set` document built by `JobRepository.updateStatus`: a field is
written only when the corresponding argument was not `undefined`
(outer `some`). -/
def applyStatusUpdate (j : JobRec) (status : JobStatus)
    (result? : Option (Option String)) (error? : Option (Option String))
    (metadata? : Option JobMetadata) : JobRec :=
  { j with
    status := status
    result := result?.getD j.result
    error := error?.getD j.error
    metadata := metadata?.getD j.metadata }

/-- `JobRepository.updateStatus`: `Job.findByIdAndUpdate(id, {$set: ...},
{new: true})` — update the record with the given id, if any, and return
the updated document (or `null` when the id is unknown). -/
def JobRepository.updateStatus : Store → String → JobStatus →
    Option (Option String) → Option (Option String) → Option JobMetadata →
    Store × Option JobRec
  | [], _, _, _, _, _ => ([], none)
  | j :: rest, jobId, status, result?, error?, metadata? =>
    if j.id == jobId then
      (applyStatusUpdate j status result? error? metadata? :: rest,
       some (applyStatusUpdate j status result? error? metadata?))
    else
      (j :: (JobRepository.updateStatus rest jobId status result? error? metadata?).1,
       (JobRepository.updateStatus rest jobId status result? error? metadata?).2)

/-- JavaScript truthiness of an optional string: `undefined`, `null` and
the empty string are falsy. -/
def truthyStr : Option String → Bool
  | none => false
  | some s => !(s == "")

/-- JavaScript `x || null` on an optional string. -/
def orNull (x : Option String) : Option String :=
  if truthyStr x then x else none

/-- The mock usage metadata built inside `handleWebhookCallback`:
`promptTokens = floor(random()*100) + 10`,
`completionTokens = floor(random()*200) + 50`, then
`totalTokens = (promptTokens || 0) + (completionTokens || 0)` and
`estimatedCost = totalTokens * 0.00002`. `rand` carries the two floored
random draws. -/
def mkCallbackMetadata (rand : Nat × Nat) : JobMetadata :=
  let md0 : JobMetadata :=
    { promptTokens := some (rand.1 + 10)
      completionTokens := some (rand.2 + 50)
      totalTokens := some 0
      estimatedCost := some 0 }
  let total : Nat := md0.promptTokens.getD 0 + md0.completionTokens.getD 0
  { md0 with
    totalTokens := some total
    estimatedCost := some ((total : ℚ) * (2 / 100000)) }

/-- `JobService.handleWebhookCallback jobId result error`: fetch the job;
`null` when unknown; return the record unchanged when its status is no
longer `PENDING`; otherwise finalize with `FAILED` when `error` is truthy,
else `COMPLETED`, attaching `result || null`, `error || null` and the mock
metadata. -/
def JobService.handleWebhookCallback (s : Store) (rand : Nat × Nat)
    (jobId : String) (result error : Option String) : Store × Option JobRec :=
  match JobRepository.findById s jobId with
  | none => (s, none)
  | some existingJob =>
    if existingJob.status ≠ JobStatus.PENDING then
      (s, some existingJob)
    else
      let status : JobStatus :=
        if truthyStr error then JobStatus.FAILED else JobStatus.COMPLETED
      let metadata := mkCallbackMetadata rand
      JobRepository.updateStatus s jobId status
        (some (orNull result)) (some (orNull error)) (some metadata)

/-- The deliberately malformed result written by the hallucination
simulation (a brace-opening non-JSON string). -/
def malformedHallucinationResult : String :=
  "\x7b\"invalid_json\": this is not valid"

/-- `JobService.simulateHallucination`: force the record to `COMPLETED`
with the malformed result and `error = null`, regardless of current
status; no metadata argument is passed. -/
def JobService.simulateHallucination (s : Store) (jobId : String) :
    Store × Option JobRec :=
  JobRepository.updateStatus s jobId JobStatus.COMPLETED
    (some (some malformedHallucinationResult)) (some none) none

/-- Result of one `MockJobQueue.enqueue` call on the bookkeeping state:
the new `pendingJobs` set, and whether an asynchronous `processJob`
execution task was started by the call. -/
structure EnqueueResult where
  state : List String
  started : Bool
deriving DecidableEq

/-- `MockJobQueue.enqueue`: add the id to `pendingJobs` and immediately
start `processJob(jobId)` without awaiting it. There is no shutdown flag:
the task is started unconditionally. (The asynchronous `finally` that
later removes the id is outside this synchronous state model.) -/
def MockJobQueue.enqueue (pendingJobs : List String) (jobId : String) :
    EnqueueResult :=
  { state := pendingJobs.insert jobId, started := true }

/-- `MockJobQueue.shutdown`: log and clear `pendingJobs`; nothing else is
touched and no flag is set. -/
def MockJobQueue.shutdown (_pendingJobs : List String) : List String := []

/-- `JobService.createJob`: persist a new `PENDING` record via
`jobRepository.create`, then enqueue the created record's id; return the
created record. The queue bookkeeping state is threaded explicitly. -/
def JobService.createJob (s : Store) (pendingJobs : List String)
    (freshId : String) (prompt : String) : Store × EnqueueResult × JobRec :=
  let created := JobRepository.create s freshId prompt
  let enq := MockJobQueue.enqueue pendingJobs created.2.id
  (created.1, enq, created.2)

/-- The JSON body of a webhook-callback request, before validation. The
mock queue's success report also carries a `metadata` member; zod strips
unknown keys and the controller reads only `jobId`, `result`, `error`. -/
structure WebhookCallbackBody where
  jobId : String
  result : Option String
  error : Option String
  metadata : Option JobMetadata
deriving DecidableEq

/-- `webhookCallbackSchema` from `schemas/job.schema.ts`:
`jobId: z.string().min(1)`, `result`/`error` optional strings, refined by
`result !== undefined || error !== undefined`. -/
def webhookCallbackValid (body : WebhookCallbackBody) : Bool :=
  decide (1 ≤ body.jobId.length) &&
    (!(body.result == none) || !(body.error == none))

/-- `JobController.webhookCallback`: destructure `{jobId, result, error}`
from the body and call the service; the body's `metadata` member is never
read. -/
def JobController.webhookCallback (s : Store) (rand : Nat × Nat)
    (body : WebhookCallbackBody) : Store × Option JobRec :=
  JobService.handleWebhookCallback s rand body.jobId body.result body.error

/-- Usage metadata returned by an AI processor
(`AIProcessingMetadata` in `processors/ai-processor.interface.ts`). -/
structure AIProcessingMetadata where
  promptTokens : Nat
  completionTokens : Nat
  totalTokens : Nat
  estimatedCost : ℚ
  processingTimeMs : Nat
deriving DecidableEq

/-- Result of AI processing (`AIProcessingResult`). -/
structure AIProcessingResult where
  result : String
  metadata : AIProcessingMetadata
deriving DecidableEq

/-- Configuration of the mock queue relevant to delivery
(`JobQueueConfig`). -/
structure QueueConfig where
  webhookCallbackUrl : String
  webhookSecret : String
deriving DecidableEq

/-- One `fetch` POST attempted by `processJob`, with its target URL,
shared-secret header and JSON body. -/
structure WebhookPost where
  url : String
  secret : String
  jobId : String
  result : Option String
  error : Option String
  metadata : Option AIProcessingMetadata
deriving DecidableEq

/-- The success report posted in step 3 of `processJob`:
`{jobId, result: aiResult.result, metadata: aiResult.metadata}`. -/
def successPost (cfg : QueueConfig) (jobId : String)
    (ai : AIProcessingResult) : WebhookPost :=
  { url := cfg.webhookCallbackUrl
    secret := cfg.webhookSecret
    jobId := jobId
    result := some ai.result
    error := none
    metadata := some ai.metadata }

/-- The failure report posted from the catch block of `processJob`:
`{jobId, error}`. -/
def failurePost (cfg : QueueConfig) (jobId : String) (msg : String) :
    WebhookPost :=
  { url := cfg.webhookCallbackUrl
    secret := cfg.webhookSecret
    jobId := jobId
    result := none
    error := some msg
    metadata := none }

/-- Outcomes of the effectful steps of one `processJob` run: the prompt
lookup may reject or resolve to `string | null`; the processor may reject
or resolve; each `fetch` may reject or resolve to a response whose `ok`
flag is returned. -/
structure ProcessEnv where
  promptFetch : Except String (Option String)
  process : String → String → Except String AIProcessingResult
  deliver : WebhookPost → Except String Bool

/-- The `try` block of `MockJobQueue.processJob`: fetch the prompt (throw
when missing), run the AI processor, then POST the success report. A
rejection carries the error message together with the posts already
attempted; `!response.ok` on the success POST is only logged, not thrown. -/
def MockJobQueue.processJobTry (cfg : QueueConfig) (env : ProcessEnv)
    (jobId : String) : Except (String × List WebhookPost) (List WebhookPost) :=
  match env.promptFetch with
  | Except.error e => Except.error (e, [])
  | Except.ok none =>
    Except.error ("Job " ++ jobId ++ " not found or has no prompt", [])
  | Except.ok (some prompt) =>
    match env.process jobId prompt with
    | Except.error e => Except.error (e, [])
    | Except.ok aiResult =>
      match env.deliver (successPost cfg jobId aiResult) with
      | Except.error e => Except.error (e, [successPost cfg jobId aiResult])
      | Except.ok _ok => Except.ok [successPost cfg jobId aiResult]

/-- `MockJobQueue.processJob`: run the `try` block; on any rejection,
build the failure report `{jobId, error}` and attempt to POST it, with the
secondary delivery wrapped in its own `try`/`catch` whose failure is
swallowed. The value lists every `fetch` the run attempted. -/
def MockJobQueue.processJob (cfg : QueueConfig) (env : ProcessEnv)
    (jobId : String) : Except String (List WebhookPost) :=
  match MockJobQueue.processJobTry cfg env jobId with
  | Except.ok posts => Except.ok posts
  | Except.error (e, posts) =>
    match env.deliver (failurePost cfg jobId e) with
    | Except.ok _ => Except.ok (posts ++ [failurePost cfg jobId e])
    | Except.error _ => Except.ok (posts ++ [failurePost cfg jobId e])

/-- The data-model invariant of §3 of the spec: a `PENDING` record has
neither `result` nor `error`; a terminal record has exactly one of them. -/
def jobInvariant (j : JobRec) : Prop :=
  (j.status = JobStatus.PENDING → j.result = none ∧ j.error = none) ∧
  (j.status ≠ JobStatus.PENDING →
    (j.result ≠ none ∧ j.error = none) ∨ (j.result = none ∧ j.error ≠ none))

instance (j : JobRec) : Decidable (jobInvariant j) := by
  unfold jobInvariant; infer_instance

/-- The invariant, on every record of the store. -/
def storeInvariant (s : Store) : Prop := ∀ j ∈ s, jobInvariant j

instance (s : Store) : Decidable (storeInvariant s) :=
  List.decidableBAll _ s

/-! ## Helper lemmas about the repository layer -/

theorem applyStatusUpdate_id (j : JobRec) (status : JobStatus)
    (result? error? : Option (Option String)) (metadata? : Option JobMetadata) :
    (applyStatusUpdate j status result? error? metadata?).id = j.id := rfl

theorem findById_cons (k : JobRec) (rest : Store) (jobId : String) :
    JobRepository.findById (k :: rest) jobId =
      if k.id == jobId then some k else JobRepository.findById rest jobId := by
  by_cases hk : (k.id == jobId) = true
  · simp [JobRepository.findById, hk]
  · simp [JobRepository.findById, hk]

theorem updateStatus_of_findById_none (s : Store) (jobId : String)
    (status : JobStatus) (result? error? : Option (Option String))
    (metadata? : Option JobMetadata)
    (h : JobRepository.findById s jobId = none) :
    JobRepository.updateStatus s jobId status result? error? metadata? = (s, none) := by
  induction s with
  | nil => rfl
  | cons j rest ih =>
    rw [findById_cons] at h
    by_cases hj : (j.id == jobId) = true
    · rw [if_pos hj] at h; exact absurd h (by simp)
    · rw [if_neg hj] at h
      simp only [JobRepository.updateStatus, if_neg hj, ih h]

theorem updateStatus_snd_of_findById_some (s : Store) (jobId : String)
    (status : JobStatus) (result? error? : Option (Option String))
    (metadata? : Option JobMetadata) (j : JobRec)
    (h : JobRepository.findById s jobId = some j) :
    (JobRepository.updateStatus s jobId status result? error? metadata?).2 =
      some (applyStatusUpdate j status result? error? metadata?) := by
  induction s with
  | nil => exact absurd h (by simp [JobRepository.findById])
  | cons k rest ih =>
    rw [findById_cons] at h
    by_cases hk : (k.id == jobId) = true
    · rw [if_pos hk] at h
      have hkj : k = j := Option.some.inj h
      subst hkj
      simp only [JobRepository.updateStatus, if_pos hk]
    · rw [if_neg hk] at h
      simp only [JobRepository.updateStatus, if_neg hk, ih h]

theorem findById_updateStatus_fst (s : Store) (jobId : String)
    (status : JobStatus) (result? error? : Option (Option String))
    (metadata? : Option JobMetadata) :
    JobRepository.findById
        (JobRepository.updateStatus s jobId status result? error? metadata?).1 jobId =
      (JobRepository.updateStatus s jobId status result? error? metadata?).2 := by
  induction s with
  | nil => rfl
  | cons k rest ih =>
    by_cases hk : (k.id == jobId) = true
    · have hk' : ((applyStatusUpdate k status result? error? metadata?).id == jobId) = true := by
        rw [applyStatusUpdate_id]; exact hk
      simp only [JobRepository.updateStatus, if_pos hk, findById_cons, if_pos hk']
    · simp only [JobRepository.updateStatus, if_neg hk, findById_cons, if_neg hk]
      exact ih

theorem mem_updateStatus_fst (s : Store) (jobId : String)
    (status : JobStatus) (result? error? : Option (Option String))
    (metadata? : Option JobMetadata) (k : JobRec)
    (h : k ∈ (JobRepository.updateStatus s jobId status result? error? metadata?).1) :
    k ∈ s ∨ ∃ j0, k = applyStatusUpdate j0 status result? error? metadata? := by
  induction s with
  | nil => exact absurd h (by simp [JobRepository.updateStatus])
  | cons j rest ih =>
    by_cases hj : (j.id == jobId) = true
    · simp only [JobRepository.updateStatus, if_pos hj, List.mem_cons] at h
      rcases h with h | h
      · exact Or.inr ⟨j, h⟩
      · exact Or.inl (List.mem_cons_of_mem _ h)
    · simp only [JobRepository.updateStatus, if_neg hj, List.mem_cons] at h
      rcases h with h | h
      · exact Or.inl (h ▸ List.mem_cons_self _ _)
      · rcases ih h with h' | h'
        · exact Or.inl (List.mem_cons_of_mem _ h')
        · exact Or.inr h'

/-! ## Helper lemmas about the callback handler -/

theorem handleWebhookCallback_of_none (s : Store) (rand : Nat × Nat)
    (jobId : String) (result error : Option String)
    (h : JobRepository.findById s jobId = none) :
    JobService.handleWebhookCallback s rand jobId result error = (s, none) := by
  unfold JobService.handleWebhookCallback
  rw [h]

theorem handleWebhookCallback_of_terminal (s : Store) (rand : Nat × Nat)
    (jobId : String) (result error : Option String) (j : JobRec)
    (hfind : JobRepository.findById s jobId = some j)
    (hterm : j.status ≠ JobStatus.PENDING) :
    JobService.handleWebhookCallback s rand jobId result error = (s, some j) := by
  unfold JobService.handleWebhookCallback
  rw [hfind]
  exact if_pos hterm

theorem handleWebhookCallback_of_pending (s : Store) (rand : Nat × Nat)
    (jobId : String) (result error : Option String) (j : JobRec)
    (hfind : JobRepository.findById s jobId = some j)
    (hpend : j.status = JobStatus.PENDING) :
    JobService.handleWebhookCallback s rand jobId result error =
      JobRepository.updateStatus s jobId
        (if truthyStr error then JobStatus.FAILED else JobStatus.COMPLETED)
        (some (orNull result)) (some (orNull error))
        (some (mkCallbackMetadata rand)) := by
  unfold JobService.handleWebhookCallback
  rw [hfind]
  exact if_neg (fun hc => hc hpend)

/-! ## Concrete fixtures -/

/-- A job record as freshly created: `PENDING`, no result, no error. -/
def pendingJob : JobRec :=
  { id := "job1"
    prompt := "summarize"
    status := JobStatus.PENDING
    result := none
    error := none
    metadata := {} }

/-- A store holding one freshly created job. -/
def pendingStore : Store := [pendingJob]

/-- A job record already finalized as `COMPLETED` with a result. -/
def termJob : JobRec :=
  { id := "job2"
    prompt := "p"
    status := JobStatus.COMPLETED
    result := some "done"
    error := none
    metadata := {} }

/-- A store holding one already-terminal job. -/
def termStore : Store := [termJob]

/-- A store reached from the empty store by one `createJob` call. -/
def reachedStore : Store := (JobService.createJob [] [] "job1" "summarize").1

/-! ## Claims -/

/-- C1: once a job's stored status is terminal, applying any completion
report through the webhook callback handler is a no-op — the handler
returns the stored record and the store is unchanged — and therefore
`apply (apply job r1) r2 = apply job r1` for any second report once the
first application left a terminal status (which every first application
does). -/
theorem webhook_callback_idempotent (s : Store) (rand1 rand2 : Nat × Nat)
    (jobId : String) (r1 e1 r2 e2 : Option String) :
    (∀ j, JobRepository.findById s jobId = some j → j.status ≠ JobStatus.PENDING →
       JobService.handleWebhookCallback s rand1 jobId r1 e1 = (s, some j)) ∧
    JobService.handleWebhookCallback
        (JobService.handleWebhookCallback s rand1 jobId r1 e1).1 rand2 jobId r2 e2 =
      JobService.handleWebhookCallback s rand1 jobId r1 e1 := by
  refine ⟨fun j hfind hterm =>
    handleWebhookCallback_of_terminal s rand1 jobId r1 e1 j hfind hterm, ?_⟩
  rcases hcase : JobRepository.findById s jobId with _ | j
  · rw [handleWebhookCallback_of_none s rand1 jobId r1 e1 hcase]
    exact handleWebhookCallback_of_none s rand2 jobId r2 e2 hcase
  · by_cases hp : j.status = JobStatus.PENDING
    · have hU := handleWebhookCallback_of_pending s rand1 jobId r1 e1 j hcase hp
      have h2 := updateStatus_snd_of_findById_some s jobId
        (if truthyStr e1 then JobStatus.FAILED else JobStatus.COMPLETED)
        (some (orNull r1)) (some (orNull e1)) (some (mkCallbackMetadata rand1)) j hcase
      have h1 := findById_updateStatus_fst s jobId
        (if truthyStr e1 then JobStatus.FAILED else JobStatus.COMPLETED)
        (some (orNull r1)) (some (orNull e1)) (some (mkCallbackMetadata rand1))
      rw [h2] at h1
      have hterm' : (applyStatusUpdate j
          (if truthyStr e1 then JobStatus.FAILED else JobStatus.COMPLETED)
          (some (orNull r1)) (some (orNull e1))
          (some (mkCallbackMetadata rand1))).status ≠ JobStatus.PENDING := by
        show (if truthyStr e1 then JobStatus.FAILED else JobStatus.COMPLETED) ≠
          JobStatus.PENDING
        split <;> decide
      rw [hU, handleWebhookCallback_of_terminal _ rand2 jobId r2 e2 _ h1 hterm', ← h2]
    · have hU := handleWebhookCallback_of_terminal s rand1 jobId r1 e1 j hcase hp
      rw [hU]
      exact handleWebhookCallback_of_terminal s rand2 jobId r2 e2 j hcase hp

/-- C1 witness: a duplicate report for the already-`COMPLETED` `termJob`
leaves the store and record unchanged. -/
theorem webhook_callback_idempotent_witness :
    JobService.handleWebhookCallback termStore (0, 0) "job2" (some "late") none =
      (termStore, some termJob) :=
  (webhook_callback_idempotent termStore (0, 0) (1, 1) "job2"
      (some "late") none none none).1 termJob rfl (by decide)

/-- C9: on a still-`PENDING` job, a callback whose `error` field is the
empty string (and no `result`) is treated as a success by JavaScript
truthiness: the job becomes `COMPLETED` with `result = null` and
`error = null`. -/
theorem empty_error_completes (s : Store) (rand : Nat × Nat) (jobId : String)
    (j : JobRec) (hfind : JobRepository.findById s jobId = some j)
    (hpend : j.status = JobStatus.PENDING) :
    ((JobService.handleWebhookCallback s rand jobId none (some "")).2.map
       fun u => (u.status, u.result, u.error)) =
      some (JobStatus.COMPLETED, none, none) := by
  rw [handleWebhookCallback_of_pending s rand jobId none (some "") j hfind hpend,
    updateStatus_snd_of_findById_some s jobId _ _ _ _ j hfind]
  rfl

/-- C9 witness: concrete run on `pendingStore`. -/
theorem empty_error_completes_witness :
    ((JobService.handleWebhookCallback pendingStore (0, 1) "job1" none (some "")).2.map
       fun u => (u.status, u.result, u.error)) =
      some (JobStatus.COMPLETED, none, none) :=
  empty_error_completes pendingStore (0, 1) "job1" pendingJob rfl rfl

/-- C4 (amended): on a still-`PENDING` job the persisted status is
`FAILED` iff `error` is present and non-empty (JavaScript truthiness),
else `COMPLETED`; the attached `result`/`error` are the reported values
with falsy (absent or empty) values coerced to `null`; and the update is
persisted — re-reading the id yields the returned record. -/
theorem callback_finalization_amended (s : Store) (rand : Nat × Nat)
    (jobId : String) (r e : Option String) (j : JobRec)
    (hfind : JobRepository.findById s jobId = some j)
    (hpend : j.status = JobStatus.PENDING) :
    ((JobService.handleWebhookCallback s rand jobId r e).2.map
       fun u => (u.status, u.result, u.error)) =
      some ((if truthyStr e then JobStatus.FAILED else JobStatus.COMPLETED),
        orNull r, orNull e) ∧
    JobRepository.findById (JobService.handleWebhookCallback s rand jobId r e).1 jobId =
      (JobService.handleWebhookCallback s rand jobId r e).2 := by
  have hU := handleWebhookCallback_of_pending s rand jobId r e j hfind hpend
  constructor
  · rw [hU, updateStatus_snd_of_findById_some s jobId _ _ _ _ j hfind]
    rfl
  · rw [hU]
    exact findById_updateStatus_fst s jobId _ _ _ _

/-- C4 counterexample: the claim as stated says the status is `FAILED`
if and only if `error` was provided; on `pendingStore` a callback that
does provide `error` (the empty string) yields `COMPLETED`, not `FAILED`. -/
theorem callback_empty_error_not_failed_cex :
    ((JobService.handleWebhookCallback pendingStore (0, 0) "job1" none (some "")).2.map
       fun u => u.status) = some JobStatus.COMPLETED ∧
    ((JobService.handleWebhookCallback pendingStore (0, 0) "job1" none (some "")).2.map
       fun u => u.status) ≠ some JobStatus.FAILED := by
  constructor <;> decide

/-- C4 witness: a non-empty `error` does fail the job, attaching the text. -/
theorem callback_finalization_amended_witness :
    ((JobService.handleWebhookCallback pendingStore (2, 3) "job1" none (some "boom")).2.map
       fun u => (u.status, u.result, u.error)) =
      some (JobStatus.FAILED, none, some "boom") :=
  (callback_finalization_amended pendingStore (2, 3) "job1" none (some "boom")
      pendingJob rfl rfl).1

/-- C5: anomaly simulation forces any existing job — whatever its current
status — to `COMPLETED` with the non-null malformed result and no error,
and persists that write; on an unknown id it reports not-found
(`null`, store unchanged). -/
theorem simulateHallucination_spec (s : Store) (jobId : String) :
    (JobRepository.findById s jobId = none →
       JobService.simulateHallucination s jobId = (s, none)) ∧
    ∀ j, JobRepository.findById s jobId = some j →
      ((JobService.simulateHallucination s jobId).2.map
         fun u => (u.status, u.result, u.error)) =
        some (JobStatus.COMPLETED, some malformedHallucinationResult, none) ∧
      JobRepository.findById (JobService.simulateHallucination s jobId).1 jobId =
        (JobService.simulateHallucination s jobId).2 := by
  constructor
  · intro h
    exact updateStatus_of_findById_none s jobId _ _ _ _ h
  · intro j hfind
    constructor
    · show (JobRepository.updateStatus s jobId JobStatus.COMPLETED
          (some (some malformedHallucinationResult)) (some none) none).2.map
          (fun u => (u.status, u.result, u.error)) = _
      rw [updateStatus_snd_of_findById_some s jobId _ _ _ _ j hfind]
      rfl
    · exact findById_updateStatus_fst s jobId _ _ _ _

/-- C5 witness: simulating the anomaly on the already-`COMPLETED`
`termJob` overrides it with the malformed result. -/
theorem simulateHallucination_spec_witness :
    ((JobService.simulateHallucination termStore "job2").2.map
       fun u => (u.status, u.result, u.error)) =
      some (JobStatus.COMPLETED, some malformedHallucinationResult, none) :=
  ((simulateHallucination_spec termStore "job2").2 termJob rfl).1

/-! ## Truthiness helpers -/

theorem orNull_of_truthy {x : Option String} (h : truthyStr x = true) :
    orNull x = x ∧ x ≠ none := by
  constructor
  · simp [orNull, h]
  · intro hn
    rw [hn] at h
    exact absurd h (by decide)

theorem orNull_of_not_truthy {x : Option String} (h : truthyStr x = false) :
    orNull x = none := by
  simp [orNull, h]

theorem orNull_ne_none_of_truthy {x : Option String} (h : truthyStr x = true) :
    orNull x ≠ none := by
  rcases orNull_of_truthy h with ⟨h1, h2⟩
  rw [h1]
  exact h2

theorem jobInvariant_applyStatusUpdate (j0 : JobRec) (st : JobStatus)
    (rv ev : Option String) (metadata? : Option JobMetadata)
    (hst : st ≠ JobStatus.PENDING)
    (hre : (rv ≠ none ∧ ev = none) ∨ (rv = none ∧ ev ≠ none)) :
    jobInvariant (applyStatusUpdate j0 st (some rv) (some ev) metadata?) := by
  refine ⟨fun hp => absurd hp hst, fun _ => hre⟩

/-- C2 counterexample: the claim says a callback carrying both `result`
and `error` is rejected; the schema's refinement only demands at least one
of them, so a body with both is accepted. -/
theorem webhook_schema_accepts_both_cex :
    webhookCallbackValid
      { jobId := "x", result := some "ok", error := some "boom", metadata := none } =
      true := by
  decide

/-- C2 (amended): validation rejects a callback carrying neither `result`
nor `error`; but any body with a non-empty `jobId` and at least one of the
two fields present — including both at once — is accepted: exclusivity is
not enforced. -/
theorem webhook_schema_amended (body : WebhookCallbackBody) :
    (body.result = none → body.error = none → webhookCallbackValid body = false) ∧
    (1 ≤ body.jobId.length → (body.result ≠ none ∨ body.error ≠ none) →
      webhookCallbackValid body = true) := by
  constructor
  · intro hr he
    unfold webhookCallbackValid
    rw [hr, he]
    simp
  · intro hid hpres
    have h1 : decide (1 ≤ body.jobId.length) = true := decide_eq_true hid
    have h2 : (!(body.result == none) || !(body.error == none)) = true := by
      rcases hpres with h | h
      · rcases Option.ne_none_iff_exists.mp h with ⟨v, hv⟩
        rw [← hv]
        simp
      · rcases Option.ne_none_iff_exists.mp h with ⟨v, hv⟩
        rw [← hv]
        simp
    unfold webhookCallbackValid
    rw [h1, h2]
    rfl

/-- C2 witness: a body with neither field is rejected; a body with only
`error` is accepted. -/
theorem webhook_schema_amended_witness :
    webhookCallbackValid
        { jobId := "z", result := none, error := none, metadata := none } = false ∧
    webhookCallbackValid
        { jobId := "y", result := none, error := some "oops", metadata := none } = true :=
  ⟨(webhook_schema_amended
      { jobId := "z", result := none, error := none, metadata := none }).1 rfl rfl,
   (webhook_schema_amended
      { jobId := "y", result := none, error := some "oops", metadata := none }).2
      (by decide) (Or.inr (by decide))⟩

/-- C3 counterexample: from the empty store, create a job and apply a
callback whose `error` is the empty string: the record becomes
`COMPLETED` with `result = null` and `error = null`, violating the
claimed invariant that a terminal record has exactly one of the two set. -/
theorem job_invariant_violated_cex :
    storeInvariant reachedStore ∧
    ¬ storeInvariant
        (JobService.handleWebhookCallback reachedStore (0, 0) "job1" none (some "")).1 := by
  constructor <;> decide

/-- C3 (amended): the invariant — `PENDING` records carry neither
`result` nor `error`, terminal records exactly one — is preserved by job
creation and by anomaly simulation unconditionally, and by the webhook
callback whenever exactly one of the report's `result`/`error` fields is
truthy (present and non-empty); a report whose present field is empty, or
which carries both non-empty fields, can break it. -/
theorem job_invariant_preservation_amended (s : Store) (hs : storeInvariant s) :
    (∀ pending freshId prompt,
        storeInvariant (JobService.createJob s pending freshId prompt).1) ∧
    (∀ jobId, storeInvariant (JobService.simulateHallucination s jobId).1) ∧
    (∀ rand jobId r e, truthyStr r ≠ truthyStr e →
        storeInvariant (JobService.handleWebhookCallback s rand jobId r e).1) := by
  refine ⟨?_, ?_, ?_⟩
  · intro pending freshId prompt k hk
    have hk' : k ∈ s ++ [(JobService.createJob s pending freshId prompt).2.2] := hk
    rcases List.mem_append.mp hk' with h | h
    · exact hs k h
    · have hkeq := List.mem_singleton.mp h
      subst hkeq
      exact ⟨fun _ => ⟨rfl, rfl⟩, fun hcon => absurd rfl hcon⟩
  · intro jobId k hk
    rcases mem_updateStatus_fst s jobId _ _ _ _ k hk with h | ⟨j0, hj0⟩
    · exact hs k h
    · subst hj0
      exact jobInvariant_applyStatusUpdate j0 JobStatus.COMPLETED
        (some malformedHallucinationResult) none none (by decide)
        (Or.inl ⟨Option.some_ne_none _, rfl⟩)
  · intro rand jobId r e hx k hk
    rcases hcase : JobRepository.findById s jobId with _ | j
    · rw [handleWebhookCallback_of_none s rand jobId r e hcase] at hk
      exact hs k hk
    · by_cases hp : j.status = JobStatus.PENDING
      · rw [handleWebhookCallback_of_pending s rand jobId r e j hcase hp] at hk
        rcases mem_updateStatus_fst s jobId _ _ _ _ k hk with h | ⟨j0, hj0⟩
        · exact hs k h
        · subst hj0
          by_cases he : truthyStr e = true
          · have hr : truthyStr r = false := by
              cases hr' : truthyStr r
              · rfl
              · exact absurd (hr'.trans he.symm) hx
            refine jobInvariant_applyStatusUpdate j0 _ _ _ _ ?_ ?_
            · rw [if_pos he]
              decide
            · exact Or.inr ⟨orNull_of_not_truthy hr, orNull_ne_none_of_truthy he⟩
          · have he' : truthyStr e = false := Bool.not_eq_true _ ▸ Bool.of_not_eq_true he
            have hr : truthyStr r = true := by
              cases hr' : truthyStr r
              · exact absurd (hr'.trans he'.symm) hx
              · rfl
            refine jobInvariant_applyStatusUpdate j0 _ _ _ _ ?_ ?_
            · rw [if_neg he]
              decide
            · exact Or.inl ⟨orNull_ne_none_of_truthy hr, orNull_of_not_truthy he'⟩
      · rw [handleWebhookCallback_of_terminal s rand jobId r e j hcase hp] at hk
        exact hs k hk

/-- C3 witness: the invariant survives a genuine failure callback on
`pendingStore`. -/
theorem job_invariant_preservation_amended_witness :
    storeInvariant
      (JobService.handleWebhookCallback pendingStore (0, 0) "job1" none (some "fail")).1 :=
  (job_invariant_preservation_amended pendingStore (by decide)).2.2 (0, 0) "job1"
    none (some "fail") (by decide)

/-! ## Remaining claims -/

theorem findById_append_fresh (s : Store) (j : JobRec)
    (h : JobRepository.findById s j.id = none) :
    JobRepository.findById (s ++ [j]) j.id = some j := by
  rw [JobRepository.findById] at h ⊢
  rw [List.find?_append, h]
  simp

/-- C6: for a valid prompt (1–10,000 characters) and a fresh id,
`createJob` returns the created record with `status = PENDING`,
`result = null`, `error = null`; the record is persisted — looking it up
in the resulting store finds it — and the id submitted to the queue is
exactly the persisted record's id (the enqueue acts on the store state in
which the record already exists). -/
theorem createJob_spec (s : Store) (pending : List String) (freshId prompt : String)
    (_hlen : 1 ≤ prompt.length ∧ prompt.length ≤ 10000)
    (hfresh : JobRepository.findById s freshId = none) :
    (JobService.createJob s pending freshId prompt).2.2.status = JobStatus.PENDING ∧
    (JobService.createJob s pending freshId prompt).2.2.result = none ∧
    (JobService.createJob s pending freshId prompt).2.2.error = none ∧
    (JobService.createJob s pending freshId prompt).2.2.id = freshId ∧
    JobRepository.findById (JobService.createJob s pending freshId prompt).1 freshId =
      some (JobService.createJob s pending freshId prompt).2.2 ∧
    (JobService.createJob s pending freshId prompt).2.1 =
      MockJobQueue.enqueue pending freshId := by
  refine ⟨rfl, rfl, rfl, rfl, ?_, rfl⟩
  exact findById_append_fresh s (JobService.createJob s pending freshId prompt).2.2 hfresh

/-- C6 witness: creating a job from the empty store. -/
theorem createJob_spec_witness :
    (JobService.createJob [] [] "jobX" "hello").2.2.status = JobStatus.PENDING ∧
    (JobService.createJob [] [] "jobX" "hello").2.2.result = none ∧
    (JobService.createJob [] [] "jobX" "hello").2.2.error = none ∧
    (JobService.createJob [] [] "jobX" "hello").2.2.id = "jobX" ∧
    JobRepository.findById (JobService.createJob [] [] "jobX" "hello").1 "jobX" =
      some (JobService.createJob [] [] "jobX" "hello").2.2 ∧
    (JobService.createJob [] [] "jobX" "hello").2.1 =
      MockJobQueue.enqueue [] "jobX" :=
  createJob_spec [] [] "jobX" "hello" (by decide) rfl

/-- C7: the queue's execution task is total — it always finishes without
an exception — and whenever any step of the try block fails (prompt
missing or rejected, processor failure, success-delivery failure), the
failure report `{jobId, error}` is attempted against the configured
callback URL; a failure of that secondary delivery is swallowed. -/
theorem processJob_never_throws (cfg : QueueConfig) (env : ProcessEnv)
    (jobId : String) :
    (MockJobQueue.processJob cfg env jobId).isOk = true ∧
    ∀ e posts, MockJobQueue.processJobTry cfg env jobId = Except.error (e, posts) →
      MockJobQueue.processJob cfg env jobId =
        Except.ok (posts ++ [failurePost cfg jobId e]) ∧
      (failurePost cfg jobId e).url = cfg.webhookCallbackUrl := by
  constructor
  · unfold MockJobQueue.processJob
    cases htry : MockJobQueue.processJobTry cfg env jobId with
    | ok posts => rfl
    | error p =>
      obtain ⟨e, posts⟩ := p
      cases hd : env.deliver (failurePost cfg jobId e) <;>
        simp [hd, Except.isOk, Except.toBool]
  · intro e posts htry
    unfold MockJobQueue.processJob
    rw [htry]
    refine ⟨?_, rfl⟩
    cases hd : env.deliver (failurePost cfg jobId e) <;> simp [hd]

/-- A queue configuration fixture. -/
def sampleQueueConfig : QueueConfig :=
  { webhookCallbackUrl := "http://localhost:3000/api/webhook/callback"
    webhookSecret := "secret" }

/-- An execution environment whose prompt lookup resolves to `null` and
whose deliveries are rejected — the worst case for the fallback path. -/
def promptMissingEnv : ProcessEnv :=
  { promptFetch := Except.ok none
    process := fun _ _ => Except.error "unused"
    deliver := fun _ => Except.error "connection refused" }

/-- C7 witness: prompt missing and delivery failing — still no exception,
and the failure report was attempted. -/
theorem processJob_never_throws_witness :
    MockJobQueue.processJob sampleQueueConfig promptMissingEnv "abc123" =
      Except.ok [failurePost sampleQueueConfig "abc123"
        "Job abc123 not found or has no prompt"] := by
  have h := (processJob_never_throws sampleQueueConfig promptMissingEnv "abc123").2
    "Job abc123 not found or has no prompt" [] rfl
  simpa using h.1

/-- C8 counterexample: the claim says no enqueue call made after shutdown
starts a new execution task; in the code `enqueue` has no shutdown gate —
after `shutdown` it still registers the job and starts processing. -/
theorem enqueue_after_shutdown_cex :
    MockJobQueue.enqueue (MockJobQueue.shutdown ["job1"]) "job2" =
      { state := ["job2"], started := true } := by
  decide

/-- C8 (amended): `shutdown` clears the in-flight bookkeeping set and a
second call is a no-op; it does not cancel running tasks (it only touches
the set). The queue keeps no shutdown flag, so an `enqueue` arriving after
`shutdown` still starts a new execution task. -/
theorem shutdown_state_amended (pending : List String) (jobId : String) :
    MockJobQueue.shutdown pending = [] ∧
    MockJobQueue.shutdown (MockJobQueue.shutdown pending) =
      MockJobQueue.shutdown pending ∧
    (MockJobQueue.enqueue (MockJobQueue.shutdown pending) jobId).started = true :=
  ⟨rfl, rfl, rfl⟩

/-- C10: the usage metadata persisted by a finalizing callback write is
generated inside the handler and is independent of the report's
`metadata` member (changing it changes nothing); on every finalizing
write — `COMPLETED` or `FAILED` — the stored metadata is exactly
`mkCallbackMetadata rand`, which always satisfies
`totalTokens = promptTokens + completionTokens` and
`estimatedCost = totalTokens * 0.00002`. -/
theorem callback_metadata_spec (s : Store) (rand : Nat × Nat)
    (b : WebhookCallbackBody) (md1 md2 : Option JobMetadata) (j : JobRec)
    (hfind : JobRepository.findById s b.jobId = some j)
    (hpend : j.status = JobStatus.PENDING) :
    JobController.webhookCallback s rand { b with metadata := md1 } =
      JobController.webhookCallback s rand { b with metadata := md2 } ∧
    ((JobController.webhookCallback s rand b).2.map fun u => u.metadata) =
      some (mkCallbackMetadata rand) ∧
    (mkCallbackMetadata rand).totalTokens =
      some ((mkCallbackMetadata rand).promptTokens.getD 0 +
        (mkCallbackMetadata rand).completionTokens.getD 0) ∧
    (mkCallbackMetadata rand).estimatedCost =
      some (((mkCallbackMetadata rand).totalTokens.getD 0 : ℚ) * (2 / 100000)) := by
  refine ⟨rfl, ?_, rfl, rfl⟩
  show ((JobService.handleWebhookCallback s rand b.jobId b.result b.error).2.map
    fun u => u.metadata) = some (mkCallbackMetadata rand)
  rw [handleWebhookCallback_of_pending s rand b.jobId b.result b.error j hfind hpend,
    updateStatus_snd_of_findById_some s b.jobId _ _ _ _ j hfind]
  rfl

/-- C10 witness: concrete success callback on `pendingStore`. -/
theorem callback_metadata_spec_witness :
    ((JobController.webhookCallback pendingStore (3, 4)
        { jobId := "job1", result := some "res", error := none, metadata := none }).2.map
       fun u => u.metadata) = some (mkCallbackMetadata (3, 4)) :=
  (callback_metadata_spec pendingStore (3, 4)
      { jobId := "job1", result := some "res", error := none, metadata := none }
      (some {}) none pendingJob rfl rfl).2.1
